import Mathlib

/-!
Verification development for the `mcp-o3-dr` deep-research CLI / MCP server.

The TypeScript source (build entry `index.ts`, current version) is shallowly
embedded below: argument parsing, stdin resolution, credential loading,
environment configuration, and the single-request lifecycle (API call raced
against a timeout with 10-second progress ticks, transcript logging, exit
codes, and the MCP tool handler).  Asynchronous scheduling is modelled
deterministically: an outbound API call is described by the time (in ms) at
which it settles and the value it settles with; timers fire exactly at their
deadlines, and an event strictly earlier than another is observed first.
-/

namespace O3DR

/-- `args.join(' ')` -/
def joinSpace (args : List String) : String := String.intercalate " " args

/-- Embedding of JavaScript `String.prototype.trim` on both ends (the
ASCII whitespace the source ever meets: space, tab, CR, LF). -/
def jsTrim (s : String) : String :=
  String.mk
    (((s.data.dropWhile Char.isWhitespace).reverse.dropWhile
        Char.isWhitespace).reverse)

/-- Whether the first list is an initial segment of the second. -/
def listIsPrefixOf : List Char → List Char → Bool
  | [], _ => true
  | _ :: _, [] => false
  | p :: ps, c :: cs => p == c && listIsPrefixOf ps cs

/-- Embedding of JavaScript `s.startsWith(p)`. -/
def strStartsWith (s p : String) : Bool := listIsPrefixOf p.data s.data

/-- Embedding of JavaScript `s.split('\n')` (splitting on a single
newline separator; the empty string yields one empty field). -/
def splitLinesAux : List Char → List Char → List String
  | [], acc => [String.mk acc.reverse]
  | c :: cs, acc =>
    if c == '\n' then String.mk acc.reverse :: splitLinesAux cs []
    else splitLinesAux cs (c :: acc)

def splitLines (s : String) : List String := splitLinesAux s.data []

/-- Result of `parseArguments` in the source: one of the four `action`
strings, with the joined query for the search action. -/
inductive Action where
  | help
  | version
  | mcp
  | search (query : String)
deriving DecidableEq, Repr

/-- Embedding of `parseArguments(args)`:
no args → help; `-h`/`--help` → help; `-v`/`--version` → version; `mcp` →
mcp; `-p` with at least one further token → search over the remaining tokens
joined by spaces; anything else → search over all tokens joined by spaces. -/
def parseArguments : List String → Action
  | [] => .help
  | firstArg :: rest =>
    if firstArg == "-h" || firstArg == "--help" then .help
    else if firstArg == "-v" || firstArg == "--version" then .version
    else if firstArg == "mcp" then .mcp
    else if firstArg == "-p" && decide (rest.length ≥ 1) then .search (joinSpace rest)
    else .search (joinSpace (firstArg :: rest))

/-- Embedding of `readStdin()`: `null` on a TTY, otherwise the piped text
with leading and trailing whitespace trimmed (`data.trim()`). -/
def readStdin (isTTY : Bool) (raw : String) : Option String :=
  if isTTY then none else some (jsTrim raw)

/-- JavaScript truthiness of the `stdinData` value (`string | null`):
`null` and the empty string are falsy. -/
def stdinTruthy : Option String → Bool
  | some s => s != ""
  | none => false

/-- What `main()` resolves an invocation to, after stdin/args merging. -/
inductive Invocation where
  | invHelp
  | invVersion
  | invServer
  | invSearch (query : String)
  | invNone
deriving DecidableEq, Repr

/-- Embedding of the dispatch logic of `main()`:
stdin truthy and no args → search with stdin alone; stdin truthy and args
present → if the first arg is truthy and is `mcp` or starts with `-`, parse
the args, appending `' ' + stdinData` to a parsed search query, else treat
all args as the query and append `' ' + stdinData`; stdin falsy → parse args
normally (a search runs only when its query string is truthy). -/
def mainDispatch (stdinData : Option String) (args : List String) : Invocation :=
  if stdinTruthy stdinData then
    match args with
    | [] => .invSearch (stdinData.getD "")
    | firstArg :: rest =>
      if firstArg != "" && (firstArg == "mcp" || strStartsWith firstArg "-") then
        match parseArguments (firstArg :: rest) with
        | .help => .invHelp
        | .version => .invVersion
        | .mcp => .invServer
        | .search q => .invSearch (q ++ " " ++ stdinData.getD "")
      else
        .invSearch (joinSpace (firstArg :: rest) ++ " " ++ stdinData.getD "")
  else
    match parseArguments args with
    | .help => .invHelp
    | .version => .invVersion
    | .mcp => .invServer
    | .search q => if q != "" then .invSearch q else .invNone

/-- A quote character matched by the regex class `["']`. -/
def isQuoteChar (c : Char) : Bool := c == '"' || c == '\''

/-- Embedding of `.replace(/^["']|["']$/g, '')`: one leading quote
character is removed, then one trailing quote character of what remains
(the two matches of the global regex cannot overlap). -/
def stripQuotes (s : String) : String :=
  let l1 := match s.data with
    | c :: rest => if isQuoteChar c then rest else s.data
    | [] => []
  match l1.getLast? with
  | some c => if isQuoteChar c then String.mk l1.dropLast else String.mk l1
  | none => String.mk l1

/-- The key prefix searched for in `~/.openai.env`. -/
def apiKeyPrefix : String := "OPENAI_API_KEY="

/-- Embedding of the line loop of `loadApiKey`: first line whose trimmed
text starts with `OPENAI_API_KEY=` yields the remainder with surrounding
quotes stripped; `trimmed.replace('OPENAI_API_KEY=', '')` replaces the
first occurrence, which under the `startsWith` guard is the prefix. -/
def findKeyLine : List String → Option String
  | [] => none
  | line :: rest =>
    let trimmed := jsTrim line
    if strStartsWith trimmed apiKeyPrefix then
      some (stripQuotes (String.mk (trimmed.data.drop apiKeyPrefix.data.length)))
    else findKeyLine rest

/-- Observable state of the `~/.openai.env` file: absent
(`fs.existsSync` false), unreadable (`readFileSync` throws, caught and
swallowed), or readable with the given content. -/
inductive FileState where
  | absent
  | readError
  | content (text : String)
deriving DecidableEq, Repr

/-- The file half of `loadApiKey`: absent file and read failure both fall
through to `undefined`; readable content is split on newlines and scanned. -/
def loadApiKeyFromFile : FileState → Option String
  | .absent => none
  | .readError => none
  | .content text => findKeyLine (splitLines text)

/-- Embedding of `loadApiKey()`: the environment variable wins when truthy
(set and non-empty); otherwise the fallback file is consulted. -/
def loadApiKey (envVar : Option String) (file : FileState) : Option String :=
  match envVar with
  | some v => if v != "" then some v else loadApiKeyFromFile file
  | none => loadApiKeyFromFile file

/-- Decimal or hexadecimal digit value of a character, as recognised by
JavaScript `parseInt`. -/
def hexDigitVal (c : Char) : Option Nat :=
  if '0' ≤ c ∧ c ≤ '9' then some (c.toNat - '0'.toNat)
  else if 'a' ≤ c ∧ c ≤ 'f' then some (c.toNat - 'a'.toNat + 10)
  else if 'A' ≤ c ∧ c ≤ 'F' then some (c.toNat - 'A'.toNat + 10)
  else none

/-- Maximal prefix of digit values below `radix`. -/
def digitsValue (radix : Nat) : List Char → List Nat
  | [] => []
  | c :: cs =>
    match hexDigitVal c with
    | some d => if d < radix then d :: digitsValue radix cs else []
    | none => []

/-- Embedding of JavaScript `parseInt(s)` with no radix argument: leading
whitespace is skipped, an optional sign is read, `0x`/`0X` selects radix 16
(otherwise 10), and the maximal digit prefix is converted; no digits means
`NaN`, modelled as `none`. -/
def jsParseInt (s : String) : Option Int :=
  let cs0 := s.data.dropWhile Char.isWhitespace
  let signed : Int × List Char :=
    match cs0 with
    | c :: rest => if c == '-' then (-1, rest) else if c == '+' then (1, rest) else (1, cs0)
    | [] => (1, [])
  let based : Nat × List Char :=
    match signed.2 with
    | c0 :: cx :: rest =>
      if c0 == '0' && (cx == 'x' || cx == 'X') then (16, rest) else (10, signed.2)
    | _ => (10, signed.2)
  let ds := digitsValue based.1 based.2
  if ds.isEmpty then none
  else some (signed.1 * (Int.ofNat (ds.foldl (fun acc d => acc * based.1 + d) 0)))

/-- Embedding of `process.env.X || "default"`: an unset or empty variable
falls back to the default string. -/
def envOrDefault (v : Option String) (d : String) : String :=
  match v with
  | some s => if s != "" then s else d
  | none => d

/-- `config.maxRetries = parseInt(process.env.OPENAI_MAX_RETRIES || "3")`;
`none` models `NaN`. -/
def maxRetriesConfig (env : Option String) : Option Int :=
  jsParseInt (envOrDefault env "3")

/-- `config.timeout = parseInt(process.env.OPENAI_API_TIMEOUT || "1800000")`;
`none` models `NaN`. -/
def apiTimeoutConfig (env : Option String) : Option Int :=
  jsParseInt (envOrDefault env "1800000")

/-- Deterministic description of one outbound `openai.responses.create`
call: the time in ms at which the returned promise settles, and what it
settles with — `Except.error msg` for a rejection, `Except.ok t` for a
resolution whose `output_text` is `t` (`none` when the API returns no
text). -/
structure ApiBehavior where
  settleTime : Nat
  result : Except String (Option String)
deriving Repr

/-- The rejection message built by the timeout handler:
`` `Request timed out after ${timeoutMs / 1000} seconds` ``.  JavaScript
divides as floats; the embedding uses `Nat` division, which renders the
same text whenever `timeoutMs` is a multiple of 1000 (as the shipped
defaults 1800000 and 60000 are). -/
def timeoutMessage (timeoutMs : Nat) : String :=
  "Request timed out after " ++ toString (timeoutMs / 1000) ++ " seconds"

/-- Embedding of `progressWithTimeout(promise, timeoutMs, cb)` under the
deterministic scheduler: the promise is raced against a `setTimeout` of
`timeoutMs`.  If the promise settles strictly before `timeoutMs` it wins
the race (its `finally` clears the timeout and the progress interval);
otherwise the timeout fires first (clearing the interval) and the race
rejects with `timeoutMessage`.  Returns the settled result together with
the time at which the race settles. -/
def progressWithTimeout (beh : ApiBehavior) (timeoutMs : Nat) :
    Except String (Option String) × Nat :=
  if beh.settleTime < timeoutMs then (beh.result, beh.settleTime)
  else (Except.error (timeoutMessage timeoutMs), timeoutMs)

/-- Number of firings of the 10-second `setInterval` strictly before the
race settles at `endTime` (ticks occur at 10000, 20000, …; the interval is
cleared when the race settles, so a tick scheduled at `endTime` itself does
not run). -/
def tickCount (endTime : Nat) : Nat := (endTime - 1) / 10000

/-- The times (ms) at which progress ticks fire before the race settles. -/
def tickTimes (endTime : Nat) : List Nat :=
  (List.range (tickCount endTime)).map (fun k => 10000 * (k + 1))

/-- `Math.round(ms / 1000)`: round-half-up of a non-negative quantity. -/
def msToSeconds (ms : Nat) : Nat := (ms + 500) / 1000

/-- The fixed placeholder used when `response.output_text` is absent. -/
def noTextPlaceholder : String := "No response text available."

/-- The lifecycle's outcome for one query: exactly one of success, API
error, or timeout, each carrying the elapsed time in ms. -/
inductive Outcome where
  | success (text : String) (elapsedMs : Nat)
  | apiError (message : String) (elapsedMs : Nat)
  | timeout (elapsedMs : Nat)
deriving DecidableEq, Repr

/-- Classification of one lifecycle run: the race's result, with an error
classified as a timeout exactly when the timeout branch produced it. -/
def runOutcome (beh : ApiBehavior) (timeoutMs : Nat) : Outcome :=
  if beh.settleTime < timeoutMs then
    match beh.result with
    | Except.ok t => .success (t.getD noTextPlaceholder) beh.settleTime
    | Except.error m => .apiError m beh.settleTime
  else .timeout timeoutMs

def Outcome.isSuccess : Outcome → Bool
  | .success .. => true
  | _ => false

def Outcome.isApiError : Outcome → Bool
  | .apiError .. => true
  | _ => false

def Outcome.isTimeout : Outcome → Bool
  | .timeout .. => true
  | _ => false

def Outcome.elapsedMs : Outcome → Nat
  | .success _ e => e
  | .apiError _ e => e
  | .timeout e => e

/-- One section appended to the transcript stream by `runCLI`.  `header`
stands for the preamble writes (title, date, query, separator, and the
`## Processing` block) that all happen before the API call is awaited;
`progress` for one interval tick's line; `results` / `errorSection` for the
success and failure bodies; the footers for the `**Completed**` /
`**Failed**` timestamp lines; `streamEnd` for `logStream.end()`. -/
inductive LogEvent where
  | header (query : String)
  | progress (elapsedS : Nat) (checkIdx : Nat)
  | results (text : String) (totalS : Nat)
  | errorSection (message : String) (totalS : Nat) (checks : Nat)
  | footerCompleted
  | footerFailed
  | streamEnd
deriving DecidableEq, Repr

def LogEvent.isProgress : LogEvent → Bool
  | .progress .. => true
  | _ => false

def LogEvent.isEnd : LogEvent → Bool
  | .streamEnd => true
  | _ => false

/-- The progress lines written while the race is pending: the k-th tick
(1-based) fires at `10000 * k` ms and logs the rounded elapsed seconds and
the check counter. -/
def progressEvents (endTime : Nat) : List LogEvent :=
  (List.range (tickCount endTime)).map
    (fun k => LogEvent.progress (msToSeconds (10000 * (k + 1))) (k + 1))

/-- Embedding of the transcript writes of `runCLI(query)`, in file order:
header block, the progress lines, then on resolution the results block, the
`**Completed**` footer and `logStream.end()`; on rejection (API error or
timeout) the error block (which carries the progress-check count), the
`**Failed**` footer and `logStream.end()`. -/
def runCLIEvents (query : String) (beh : ApiBehavior) (timeoutMs : Nat) :
    List LogEvent :=
  match progressWithTimeout beh timeoutMs with
  | (Except.ok t, endT) =>
    LogEvent.header query :: progressEvents endT ++
      [LogEvent.results (t.getD noTextPlaceholder) (msToSeconds endT),
       LogEvent.footerCompleted, LogEvent.streamEnd]
  | (Except.error m, endT) =>
    LogEvent.header query :: progressEvents endT ++
      [LogEvent.errorSection m (msToSeconds endT) (tickCount endT),
       LogEvent.footerFailed, LogEvent.streamEnd]

/-- The exit code of a CLI search run: the success path returns normally
(the process later exits 0); the catch block ends the log and calls
`process.exit(1)`. -/
def runCLIExitCode (beh : ApiBehavior) (timeoutMs : Nat) : Nat :=
  match progressWithTimeout beh timeoutMs with
  | (Except.ok _, _) => 0
  | (Except.error _, _) => 1

/-- Exit code of the legacy `runCLI` in `src/index.ts`: print the result
and return on success, `process.exit(1)` in the catch block. -/
def legacyRunCLIExitCode (result : Except String String) : Nat :=
  match result with
  | Except.ok _ => 0
  | Except.error _ => 1

/-- One content block of an MCP tool result. -/
structure ToolContent where
  type : String
  text : String
deriving DecidableEq, Repr

/-- Embedding of the `o3-search` tool handler: on resolution a single text
block with the output text (or the placeholder); in the catch block a
single text block
`` `Error after ${totalTime}s: ${errorMessage}` `` with the progress-check
suffix when any ticks fired.  The handler is a total function of the call's
behavior: every path returns a content list, none throws. -/
def o3SearchHandler (beh : ApiBehavior) (timeoutMs : Nat) : List ToolContent :=
  match progressWithTimeout beh timeoutMs with
  | (Except.ok t, _) => [ToolContent.mk "text" (t.getD noTextPlaceholder)]
  | (Except.error m, endT) =>
    [ToolContent.mk "text"
      ("Error after " ++ toString (msToSeconds endT) ++ "s: " ++ m ++
        (if tickCount endT > 0 then
          " (Progress was tracked with " ++ toString (tickCount endT) ++ " checks)"
        else ""))]

/-! ### Helper lemmas -/

/-- Every progress tick fires strictly before the race settles. -/
theorem tickTimes_lt_endTime (endTime : Nat) :
    ∀ t ∈ tickTimes endTime, t < endTime := by
  intro t ht
  simp only [tickTimes, List.mem_map, List.mem_range] at ht
  obtain ⟨k, hk, rfl⟩ := ht
  have h1 : k + 1 ≤ (endTime - 1) / 10000 := hk
  have h2 : 10000 * (k + 1) ≤ 10000 * ((endTime - 1) / 10000) :=
    Nat.mul_le_mul_left _ h1
  have h3 : (endTime - 1) / 10000 * 10000 ≤ endTime - 1 :=
    Nat.div_mul_le_self _ _
  have h4 : 1 ≤ (endTime - 1) / 10000 :=
    le_trans (Nat.succ_le_succ (Nat.zero_le k)) h1
  have h5 : 1 * 10000 ≤ endTime - 1 :=
    (Nat.le_div_iff_mul_le (by norm_num)).mp h4
  omega

/-- All events produced by the progress interval are progress lines. -/
theorem progressEvents_isProgress (endTime : Nat) :
    ∀ e ∈ progressEvents endTime, e.isProgress = true := by
  intro e he
  simp only [progressEvents, List.mem_map, List.mem_range] at he
  obtain ⟨k, _, rfl⟩ := he
  rfl

/-- No progress line is a stream end. -/
theorem progressEvents_filter_isEnd (endTime : Nat) :
    (progressEvents endTime).filter LogEvent.isEnd = [] := by
  rw [List.filter_eq_nil_iff]
  intro e he
  have h := progressEvents_isProgress endTime e he
  cases e <;> simp_all [LogEvent.isProgress, LogEvent.isEnd]

/-! ### Claim theorems -/

/-- C10: with the single argument `-p` and no stdin, `-p` is not treated
as a flag: parsing falls through to the default branch and a search with
the literal query `-p` starts — neither an error nor a help action. -/
theorem c10_lone_dash_p :
    parseArguments ["-p"] = Action.search "-p" ∧
    mainDispatch none ["-p"] = Invocation.invSearch "-p" := by
  decide

/-- C9: when OPENAI_MAX_RETRIES or OPENAI_API_TIMEOUT holds a string with
no parsable integer (e.g. `"abc"`), the config stores `NaN` (modelled as
`none`) instead of the default; the defaults 3 and 1800000 apply exactly
when the variable is unset or empty. -/
theorem c9_config_nan (s : String) (hs : s ≠ "") (hnan : jsParseInt s = none) :
    maxRetriesConfig (some s) = none ∧
    apiTimeoutConfig (some s) = none ∧
    maxRetriesConfig (some "abc") = none ∧
    apiTimeoutConfig (some "abc") = none ∧
    maxRetriesConfig none = some 3 ∧
    maxRetriesConfig (some "") = some 3 ∧
    apiTimeoutConfig none = some 1800000 ∧
    apiTimeoutConfig (some "") = some 1800000 := by
  have hb : (s != "") = true := bne_iff_ne.mpr hs
  refine ⟨?_, ?_, by decide, by decide, by decide, by decide, by decide, by decide⟩ <;>
    simp [maxRetriesConfig, apiTimeoutConfig, envOrDefault, hb, hnan]

theorem c9_config_nan_witness :
    ("abc" : String) ≠ "" ∧ jsParseInt "abc" = none ∧
    maxRetriesConfig (some "abc") = none :=
  ⟨by decide, by decide, (c9_config_nan "abc" (by decide) (by decide)).1⟩

/-- C6: the credential resolver returns the environment variable whenever
it is set and non-empty; otherwise the value of the first matching line of
the fallback file with one surrounding quote stripped from each end;
absent file, failed read, or no matching line yield `none` without
raising. -/
theorem c6_credential_resolver (v : String) (hv : v ≠ "") (f : FileState) :
    loadApiKey (some v) f = some v ∧
    loadApiKey none FileState.absent = none ∧
    loadApiKey none FileState.readError = none ∧
    loadApiKey (some "") FileState.absent = none ∧
    loadApiKey none (FileState.content "OPENAI_API_KEY=\"Y\"") = some "Y" ∧
    loadApiKey none
        (FileState.content "FOO=1\nOPENAI_API_KEY='Z'\nOPENAI_API_KEY=W") =
      some "Z" := by
  have hb : (v != "") = true := bne_iff_ne.mpr hv
  exact ⟨by simp [loadApiKey, hb], by decide, by decide, by decide,
    by decide, by decide⟩

theorem c6_credential_resolver_witness :
    ("X" : String) ≠ "" ∧ loadApiKey (some "X") FileState.absent = some "X" :=
  ⟨by decide, (c6_credential_resolver "X" (by decide) FileState.absent).1⟩

/-- C1 counterexample: with the API call rejecting after 5 s against a
10 s timeout, the lifecycle completes with an `ApiError` outcome reported
as readable text, yet `runCLI`'s catch block exits the process with code 1,
not 0 as the claim states. -/
theorem c1_counterexample :
    runOutcome ⟨5000, Except.error "boom"⟩ 10000 =
      Outcome.apiError "boom" 5000 ∧
    runCLIExitCode ⟨5000, Except.error "boom"⟩ 10000 = 1 ∧
    ¬ runCLIExitCode ⟨5000, Except.error "boom"⟩ 10000 = 0 := by
  refine ⟨by decide, by decide, by decide⟩

/-- C1 (amended): a CLI search invocation whose lifecycle completes with
an `ApiError` or `Timeout` outcome terminates with exit code 1 — the same
code as the unrecoverable paths — while exit code 0 occurs on the success
path; the legacy CLI (`src/index.ts`) likewise exits 1 on any lifecycle
error. -/
theorem c1_exit_code_on_error (beh : ApiBehavior) (timeoutMs : Nat) :
    ((runOutcome beh timeoutMs).isApiError = true ∨
        (runOutcome beh timeoutMs).isTimeout = true →
      runCLIExitCode beh timeoutMs = 1) ∧
    ((runOutcome beh timeoutMs).isSuccess = true →
      runCLIExitCode beh timeoutMs = 0) ∧
    (∀ m, legacyRunCLIExitCode (Except.error m) = 1) := by
  by_cases hlt : beh.settleTime < timeoutMs
  · refine ⟨?_, ?_, fun m => rfl⟩ <;>
      cases hb : beh.result <;>
        simp [runOutcome, runCLIExitCode, progressWithTimeout, hlt, hb,
          Outcome.isApiError, Outcome.isTimeout, Outcome.isSuccess]
  · refine ⟨?_, ?_, fun m => rfl⟩ <;>
      simp [runOutcome, runCLIExitCode, progressWithTimeout, hlt,
        Outcome.isApiError, Outcome.isTimeout, Outcome.isSuccess]

theorem c1_exit_code_on_error_witness :
    runCLIExitCode ⟨20000, Except.ok (some "hi")⟩ 10000 = 1 :=
  (c1_exit_code_on_error ⟨20000, Except.ok (some "hi")⟩ 10000).1
    (Or.inr (by decide))

/-- C2: one run of the lifecycle produces exactly one of the outcomes
Success, ApiError, Timeout; if the call settles strictly before the
timeout the outcome is Success or ApiError and never Timeout; the recorded
elapsed time is non-negative. -/
theorem c2_outcome_trichotomy (beh : ApiBehavior) (timeoutMs : Nat) :
    (((runOutcome beh timeoutMs).isSuccess = true ∧
        (runOutcome beh timeoutMs).isApiError = false ∧
        (runOutcome beh timeoutMs).isTimeout = false) ∨
      ((runOutcome beh timeoutMs).isSuccess = false ∧
        (runOutcome beh timeoutMs).isApiError = true ∧
        (runOutcome beh timeoutMs).isTimeout = false) ∨
      ((runOutcome beh timeoutMs).isSuccess = false ∧
        (runOutcome beh timeoutMs).isApiError = false ∧
        (runOutcome beh timeoutMs).isTimeout = true)) ∧
    (beh.settleTime < timeoutMs →
      (runOutcome beh timeoutMs).isTimeout = false ∧
      ((runOutcome beh timeoutMs).isSuccess = true ∨
        (runOutcome beh timeoutMs).isApiError = true)) ∧
    0 ≤ (runOutcome beh timeoutMs).elapsedMs := by
  refine ⟨?_, ?_, Nat.zero_le _⟩
  · cases runOutcome beh timeoutMs <;>
      simp [Outcome.isSuccess, Outcome.isApiError, Outcome.isTimeout]
  · intro h
    cases hb : beh.result <;>
      simp [runOutcome, h, hb, Outcome.isSuccess, Outcome.isApiError,
        Outcome.isTimeout]

theorem c2_outcome_trichotomy_witness :
    (runOutcome ⟨1000, Except.ok (some "hi")⟩ 2000).isTimeout = false ∧
    ((runOutcome ⟨1000, Except.ok (some "hi")⟩ 2000).isSuccess = true ∨
      (runOutcome ⟨1000, Except.ok (some "hi")⟩ 2000).isApiError = true) :=
  (c2_outcome_trichotomy ⟨1000, Except.ok (some "hi")⟩ 2000).2.1 (by decide)

/-- C3: if the outbound call has not settled once the timeout elapses, the
race rejects with the message that the request timed out after
timeoutMs/1000 seconds, the outcome is Timeout, and every progress tick of
the 10-second interval fired strictly before the timeout (the interval is
cleared when the timeout fires, so no tick is emitted afterward). -/
theorem c3_timeout_behavior (beh : ApiBehavior) (timeoutMs : Nat)
    (h : timeoutMs ≤ beh.settleTime) :
    (progressWithTimeout beh timeoutMs).1 =
      Except.error (timeoutMessage timeoutMs) ∧
    runOutcome beh timeoutMs = Outcome.timeout timeoutMs ∧
    ∀ t ∈ tickTimes (progressWithTimeout beh timeoutMs).2, t < timeoutMs := by
  have hlt : ¬ beh.settleTime < timeoutMs := Nat.not_lt.mpr h
  refine ⟨?_, ?_, ?_⟩
  · simp [progressWithTimeout, hlt]
  · simp [runOutcome, hlt]
  · intro t ht
    have h2 : (progressWithTimeout beh timeoutMs).2 = timeoutMs := by
      simp [progressWithTimeout, hlt]
    rw [h2] at ht
    exact tickTimes_lt_endTime timeoutMs t ht

theorem c3_timeout_behavior_witness :
    (progressWithTimeout ⟨30000, Except.ok none⟩ 20000).1 =
      Except.error (timeoutMessage 20000) :=
  (c3_timeout_behavior ⟨30000, Except.ok none⟩ 20000 (by decide)).1

/-- C7: every invocation of the `o3-search` tool handler returns a single
text content block; on resolution it carries the result text (or the fixed
placeholder when the API returned none), and on any lifecycle failure —
API error or timeout — a string beginning `Error after Ns: `; the handler
is a total function of the call's behavior, so no exception reaches the
transport layer. -/
theorem c7_tool_handler (beh : ApiBehavior) (timeoutMs : Nat) :
    (∃ s, o3SearchHandler beh timeoutMs = [ToolContent.mk "text" s]) ∧
    (∀ t, (progressWithTimeout beh timeoutMs).1 = Except.ok t →
      o3SearchHandler beh timeoutMs =
        [ToolContent.mk "text" (t.getD noTextPlaceholder)]) ∧
    (∀ m, (progressWithTimeout beh timeoutMs).1 = Except.error m →
      ∃ tail, o3SearchHandler beh timeoutMs =
        [ToolContent.mk "text"
          (("Error after " ++
              toString (msToSeconds (progressWithTimeout beh timeoutMs).2) ++
              "s: ") ++ tail)]) := by
  rcases hres : progressWithTimeout beh timeoutMs with ⟨r, endT⟩
  cases r with
  | ok t =>
    refine ⟨⟨t.getD noTextPlaceholder, ?_⟩, ?_, ?_⟩
    · simp [o3SearchHandler, hres]
    · intro t' ht'
      have h' : Except.ok (ε := String) t = Except.ok t' := ht'
      injection h' with h''
      subst h''
      simp [o3SearchHandler, hres]
    · intro m hm
      have h' : Except.ok (ε := String) t = Except.error m := hm
      simp at h'
  | error m =>
    refine ⟨⟨"Error after " ++ toString (msToSeconds endT) ++ "s: " ++ m ++
        (if tickCount endT > 0 then
          " (Progress was tracked with " ++ toString (tickCount endT) ++
            " checks)"
        else ""), ?_⟩, ?_, ?_⟩
    · simp [o3SearchHandler, hres]
    · intro t' ht'
      have h' : Except.error (α := Option String) m = Except.ok t' := ht'
      simp at h'
    · intro m' hm'
      have h' : Except.error (α := Option String) m = Except.error m' := hm'
      injection h' with h''
      subst h''
      refine ⟨m ++
        (if tickCount endT > 0 then
          " (Progress was tracked with " ++ toString (tickCount endT) ++
            " checks)"
        else ""), ?_⟩
      simp [o3SearchHandler, hres, String.append_assoc]

theorem c7_tool_handler_witness :
    o3SearchHandler ⟨1000, Except.ok (some "answer")⟩ 2000 =
      [ToolContent.mk "text" "answer"] :=
  (c7_tool_handler ⟨1000, Except.ok (some "answer")⟩ 2000).2.1
    (some "answer") rfl

/-- C4: with non-empty stdin text and a token list whose first token is
`mcp` or starts with `-`, a parse yielding a search runs the lifecycle on
the parsed query followed by one space and the stdin text, while help,
version and server-start results discard stdin. -/
theorem c4_stdin_merge (stdinData : String) (hS : stdinData ≠ "")
    (firstArg : String) (rest : List String)
    (hFirst : firstArg = "mcp" ∨ strStartsWith firstArg "-" = true) :
    (∀ q, parseArguments (firstArg :: rest) = Action.search q →
      mainDispatch (some stdinData) (firstArg :: rest) =
        Invocation.invSearch (q ++ " " ++ stdinData)) ∧
    (parseArguments (firstArg :: rest) = Action.help →
      mainDispatch (some stdinData) (firstArg :: rest) = Invocation.invHelp) ∧
    (parseArguments (firstArg :: rest) = Action.version →
      mainDispatch (some stdinData) (firstArg :: rest) =
        Invocation.invVersion) ∧
    (parseArguments (firstArg :: rest) = Action.mcp →
      mainDispatch (some stdinData) (firstArg :: rest) =
        Invocation.invServer) := by
  have hT : stdinTruthy (some stdinData) = true := by
    simp [stdinTruthy, hS]
  have hNe : firstArg ≠ "" := by
    rcases hFirst with h | h
    · subst h; decide
    · intro hcon
      subst hcon
      exact absurd h (by decide)
  have hCond :
      (firstArg != "" && (firstArg == "mcp" || strStartsWith firstArg "-")) =
        true := by
    rcases hFirst with h | h <;>
      simp [bne_iff_ne.mpr hNe, h]
  have hmain : mainDispatch (some stdinData) (firstArg :: rest) =
      (match parseArguments (firstArg :: rest) with
        | Action.help => Invocation.invHelp
        | Action.version => Invocation.invVersion
        | Action.mcp => Invocation.invServer
        | Action.search q => Invocation.invSearch (q ++ " " ++ stdinData)) := by
    simp [mainDispatch, hT, hCond]
  refine ⟨?_, ?_, ?_, ?_⟩
  · intro q hp
    rw [hmain, hp]
  · intro hp
    rw [hmain, hp]
  · intro hp
    rw [hmain, hp]
  · intro hp
    rw [hmain, hp]

theorem c4_stdin_merge_witness :
    mainDispatch (some "world") ["-p", "foo"] =
      Invocation.invSearch ("foo" ++ " " ++ "world") ∧
    ("foo" ++ " " ++ "world" : String) = "foo world" :=
  ⟨(c4_stdin_merge "world" (by decide) "-p" ["foo"]
      (Or.inr (by decide))).1 "foo" (by decide), by decide⟩

/-- C8: piped stdin is trimmed of surrounding whitespace, and
whitespace-only (or empty) stdin is treated exactly as absent stdin: the
dispatch is identical for every argument list, and with no CLI tokens the
program shows help and starts no search. -/
theorem c8_whitespace_stdin (raw : String) (hws : jsTrim raw = "") :
    readStdin false raw = some (jsTrim raw) ∧
    (∀ args, mainDispatch (readStdin false raw) args =
      mainDispatch none args) ∧
    mainDispatch (readStdin false raw) [] = Invocation.invHelp ∧
    mainDispatch none [] = Invocation.invHelp := by
  have h1 : readStdin false raw = some "" := by simp [readStdin, hws]
  refine ⟨by simp [readStdin], ?_, ?_, by decide⟩
  · intro args
    rw [h1]
    simp [mainDispatch, stdinTruthy]
  · rw [h1]
    decide

theorem c8_whitespace_stdin_witness :
    jsTrim "  \n " = "" ∧
    mainDispatch (readStdin false "  \n ") [] = Invocation.invHelp :=
  ⟨by decide, (c8_whitespace_stdin "  \n " (by decide)).2.2.1⟩

/-- C5: the transcript of every CLI search run consists, in file order, of
the header (date and query, with the processing preamble), zero or more
progress lines, exactly one of a results section or an error section, a
completion/failure footer, and a single final stream end with nothing
after it. -/
theorem c5_transcript_shape (q : String) (beh : ApiBehavior)
    (timeoutMs : Nat) :
    ∃ prog body foot,
      runCLIEvents q beh timeoutMs =
        LogEvent.header q :: (prog ++ [body, foot, LogEvent.streamEnd]) ∧
      (∀ e ∈ prog, e.isProgress = true) ∧
      ((∃ t s, body = LogEvent.results t s) ∨
        (∃ m s c, body = LogEvent.errorSection m s c)) ∧
      (foot = LogEvent.footerCompleted ∨ foot = LogEvent.footerFailed) ∧
      ((runCLIEvents q beh timeoutMs).filter LogEvent.isEnd).length = 1 := by
  rcases hres : progressWithTimeout beh timeoutMs with ⟨r, endT⟩
  cases r with
  | ok t =>
    refine ⟨progressEvents endT,
      LogEvent.results (t.getD noTextPlaceholder) (msToSeconds endT),
      LogEvent.footerCompleted, ?_, progressEvents_isProgress endT,
      Or.inl ⟨_, _, rfl⟩, Or.inl rfl, ?_⟩
    · simp [runCLIEvents, hres]
    · simp [runCLIEvents, hres, List.filter_append,
        progressEvents_filter_isEnd, LogEvent.isEnd]
  | error m =>
    refine ⟨progressEvents endT,
      LogEvent.errorSection m (msToSeconds endT) (tickCount endT),
      LogEvent.footerFailed, ?_, progressEvents_isProgress endT,
      Or.inr ⟨_, _, _, rfl⟩, Or.inr rfl, ?_⟩
    · simp [runCLIEvents, hres]
    · simp [runCLIEvents, hres, List.filter_append,
        progressEvents_filter_isEnd, LogEvent.isEnd]

theorem c5_transcript_shape_witness :
    ((runCLIEvents "q" ⟨1000, Except.ok (some "hi")⟩ 2000).filter
        LogEvent.isEnd).length = 1 := by
  obtain ⟨_, _, _, _, _, _, _, h⟩ :=
    c5_transcript_shape "q" ⟨1000, Except.ok (some "hi")⟩ 2000
  exact h

end O3DR
